import Mathlib

/-!
Shallow embedding of `node/subsystem/src/jaeger.rs` (Jaeger tracing
integration): configuration, span handles, the singleton lifecycle
state machine, trace-id derivation and the background port-binding loop.

Machine integers are modelled as `Nat`; a `u8` byte is a `Nat` known to be
`< 256`, a `u128` is the unbounded `Nat` produced by big-endian folding of
16 bytes (which is automatically `< 2 ^ 128`). A Rust panic
(`Option::expect`) is modelled as the `.error` case of `Except`, carrying
the panic message.
-/

namespace JaegerRs

/-- Configuration for the jaeger tracing (struct `JaegerConfig`):
a node name and the agent socket address (kept abstract as a string). -/
structure JaegerConfig where
  node_name : String
  agent_addr : String
deriving DecidableEq, Repr

/-- The `Default` impl for `JaegerConfig`. -/
def JaegerConfig.default : JaegerConfig :=
  { node_name := "unknown_", agent_addr := "127.0.0.1:6831" }

namespace mick_jaeger

/-- Modelled from the spec: the external `mick_jaeger` crate's span token is
not under `src/`; per the spec a span is "a named, timed unit of work,
optionally tagged with key/value metadata, associated with a trace
identifier". We keep the trace id, the name and the attached tags. -/
structure Span where
  trace_id : Nat
  name : String
  tags : List (String × String)
deriving DecidableEq, Repr

/-- Modelled from the spec: `mick_jaeger::Span::child` derives a descendant
span "linked to the same trace id" with the given name. -/
def Span.child (s : Span) (name : String) : Span :=
  { trace_id := s.trace_id, name := name, tags := [] }

/-- Modelled from the spec: `mick_jaeger::Span::add_string_tag` attaches "a
string key/value annotation to the span". -/
def Span.add_string_tag (s : Span) (tag : String) (value : String) : Span :=
  { s with tags := s.tags ++ [(tag, value)] }

/-- Modelled from the spec: the handle returned by `mick_jaeger::init`,
"a shared handle to the outbound producer used to create spans"; it
retains the service name passed at initialization. -/
structure TracesIn where
  service_name : String
deriving DecidableEq, Repr

/-- Modelled from the spec: the configuration passed to `mick_jaeger::init`. -/
structure Config where
  service_name : String
deriving DecidableEq, Repr

/-- Modelled from the spec: `mick_jaeger::init` builds the producer handle
(the `traces_out` consumer side is the background queue, irrelevant to the
state machine and elided). -/
def init (cfg : Config) : TracesIn :=
  { service_name := cfg.service_name }

/-- Modelled from the spec: `TracesIn::span` asks "the underlying producer
handle for a new span with that id and name". -/
def TracesIn.span (_t : TracesIn) (trace_id : Nat) (name : String) : Span :=
  { trace_id := trace_id, name := name, tags := [] }

end mick_jaeger

/-- A wrapper type for a span (enum `JaegerSpan`): handles running with and
without jaeger. -/
inductive JaegerSpan where
  | Enabled (inner : mick_jaeger.Span)
  | Disabled
deriving DecidableEq, Repr

/-- `JaegerSpan::child`: derive a child span, matching on the variant. -/
def JaegerSpan.child (s : JaegerSpan) (name : String) : JaegerSpan :=
  match s with
  | .Enabled inner => .Enabled (inner.child name)
  | .Disabled => .Disabled

/-- `JaegerSpan::add_string_tag`: add an additional tag to the span.
The Rust method mutates `&mut self` and returns `()`; the model returns
the updated handle, which is the whole mutated state. -/
def JaegerSpan.add_string_tag (s : JaegerSpan) (tag : String) (value : String) : JaegerSpan :=
  match s with
  | .Enabled inner => .Enabled (inner.add_string_tag tag value)
  | .Disabled => .Disabled

/-- The `From<Option<mick_jaeger::Span>>` impl for `JaegerSpan`. -/
def JaegerSpan.fromOption (src : Option mick_jaeger.Span) : JaegerSpan :=
  match src with
  | some span => .Enabled span
  | none => .Disabled

/-- A 32-byte content hash (`polkadot_primitives::v1::Hash`, i.e. `H256`):
a list of 32 bytes, each `< 256`. -/
structure Hash where
  bytes : List Nat
  len_eq : bytes.length = 32
  bytes_lt : ∀ b ∈ bytes, b < 256

/-- Big-endian interpretation of a byte buffer (`u128::from_be_bytes`):
fold the bytes most-significant first. -/
def from_be_bytes (buf : List Nat) : Nat :=
  buf.foldl (fun acc b => acc * 256 + b) 0

/-- `std::num::NonZeroU128::new`: `some` of the value when non-zero. -/
def NonZeroU128.new (n : Nat) : Option Nat :=
  if n = 0 then none else some n

/-- The error kinds of `crate::errors::JaegerError`. Modelled from the spec:
`errors.rs` is not under `src/`; the spec lists exactly these kinds
(`AlreadyLaunched`, `MissingConfiguration`, `PortAllocationError`,
`SendError`); the payloads of the last two are opaque io errors, elided. -/
inductive JaegerError where
  | AlreadyLaunched
  | MissingConfiguration
  | PortAllocationError
  | SendError
deriving DecidableEq, Repr

/-- Stateful convenience wrapper around `mick_jaeger` (enum `Jaeger`):
the lifecycle state of the singleton. -/
inductive Jaeger where
  | Launched (traces_in : mick_jaeger.TracesIn)
  | Prep (cfg : JaegerConfig)
  | None
deriving DecidableEq, Repr

/-- `Jaeger::new`: construct the `Prep` (configured) state. -/
def Jaeger.new (cfg : JaegerConfig) : Jaeger :=
  Jaeger.Prep cfg

/-- The port-binding loop of the background task spawned by
`Jaeger::launch`: starting with `port`, try to bind; on success break with
the port, otherwise increment `port` and break out with an error once the
counter reaches `u16::MAX = 65535` (so port 65535 itself is never tried).
`canBind` is the environment: whether the OS lets us bind a given port.
The loop is bounded by the `port == u16::MAX` break; `fuel` makes the
recursion structural and is chosen by the caller so that the break on the
counter always fires first (`fuel = 65535 - startPort`). -/
def bindLoop (canBind : Nat → Bool) : Nat → Nat → Except Unit Nat
  | fuel, port =>
    if canBind port then .ok port
    else
      match fuel with
      | 0 => .error ()
      | f + 1 =>
        if port + 1 = 65535 then .error ()
        else bindLoop canBind f (port + 1)

/-- `Jaeger::launch`. `self` is the manager value consumed by the call,
`instBefore` the global `INSTANCE` before the call, `canBind` the
environment of the background task's bind loop. Returns the synchronous
result of `launch`, the global `INSTANCE` after the call, and the
outcome of the spawned background task's bind phase (`none` when no task
was spawned; the task maps a bind failure to `PortAllocationError`). -/
def Jaeger.launch (self : Jaeger) (instBefore : Jaeger) (canBind : Nat → Bool) :
    Except JaegerError Unit × Jaeger × Option (Except JaegerError Nat) :=
  match self with
  | .Prep cfg =>
    let traces_in := mick_jaeger.init
      { service_name := cfg.node_name ++ "-" ++ cfg.node_name }
    let backgroundBind :=
      (bindLoop canBind (65535 - 49000) 49000).mapError
        (fun _ => JaegerError.PortAllocationError)
    (.ok (), .Launched traces_in, some backgroundBind)
  | .Launched _ => (.error .AlreadyLaunched, instBefore, none)
  | .None => (.error .MissingConfiguration, instBefore, none)

/-- `Jaeger::traces_in`: the producer handle, when launched. -/
def Jaeger.traces_in : Jaeger → Option mick_jaeger.TracesIn
  | .Launched traces_in => some traces_in
  | _ => none

/-- `Jaeger::span`: when launched, derive the trace id from the first 16
bytes of the hash (big-endian, required non-zero — the `expect` panic is
the `.error` case) and create a span; otherwise `none`. -/
def Jaeger.span (self : Jaeger) (hash : Hash) (span_name : String) :
    Except String (Option mick_jaeger.Span) :=
  match self.traces_in with
  | some traces_in =>
    match NonZeroU128.new (from_be_bytes (hash.bytes.take 16)) with
    | some trace_id => .ok (some (traces_in.span trace_id span_name))
    | none => .error "16 bytes make a u128; qed"
  | none => .ok none

/-- Free function `hash_span`: create a span for the given hash against the
current global instance, wrapping the optional `mick_jaeger` span into a
`JaegerSpan` via its `From` impl. -/
def hash_span (inst : Jaeger) (hash : Hash) (span_name : String) :
    Except String JaegerSpan :=
  (inst.span hash span_name).map JaegerSpan.fromOption

/-- A concrete hash whose 32 bytes are all zero. -/
def hashZero : Hash :=
  { bytes := List.replicate 32 0
    len_eq := by decide
    bytes_lt := by decide }

/-- A concrete hash whose first byte is 1, the rest zero. -/
def hashOne : Hash :=
  { bytes := 1 :: List.replicate 31 0
    len_eq := by decide
    bytes_lt := by decide }

/-- A concrete hash whose first byte is 2, the rest zero. -/
def hashTwo : Hash :=
  { bytes := 2 :: List.replicate 31 0
    len_eq := by decide
    bytes_lt := by decide }

/- Helper lemmas. -/

/-- The big-endian fold is zero exactly when the accumulator and every
byte are zero. -/
theorem foldl_be_eq_zero_iff :
    ∀ (l : List Nat) (a : Nat),
      l.foldl (fun acc b => acc * 256 + b) a = 0 ↔ (a = 0 ∧ ∀ b ∈ l, b = 0) := by
  intro l
  induction l with
  | nil => intro a; simp
  | cons x t ih =>
    intro a
    rw [List.foldl_cons, ih]
    constructor
    · rintro ⟨hax, ht⟩
      refine ⟨by omega, ?_⟩
      intro b hb
      rcases List.mem_cons.mp hb with hb | hb
      · omega
      · exact ht b hb
    · rintro ⟨ha, hall⟩
      have hx : x = 0 := hall x (List.mem_cons_self x t)
      exact ⟨by omega, fun b hb => hall b (List.mem_cons_of_mem x hb)⟩

/-- The big-endian fold is injective in the accumulator and the byte list,
for byte lists of equal length whose entries are bytes. -/
theorem foldl_be_inj :
    ∀ (l1 l2 : List Nat) (a1 a2 : Nat), l1.length = l2.length →
      (∀ x ∈ l1, x < 256) → (∀ x ∈ l2, x < 256) →
      l1.foldl (fun acc b => acc * 256 + b) a1 =
        l2.foldl (fun acc b => acc * 256 + b) a2 →
      a1 = a2 ∧ l1 = l2 := by
  intro l1
  induction l1 with
  | nil =>
    intro l2 a1 a2 hlen _ _ hfold
    have : l2 = [] := List.length_eq_zero.mp hlen.symm
    subst this
    simpa using hfold
  | cons x t ih =>
    intro l2 a1 a2 hlen hb1 hb2 hfold
    match l2 with
    | [] => simp at hlen
    | y :: t2 =>
      simp only [List.length_cons, Nat.succ.injEq] at hlen
      rw [List.foldl_cons, List.foldl_cons] at hfold
      have ht2 : ∀ b ∈ t2, b < 256 := fun b hb => hb2 b (List.mem_cons_of_mem y hb)
      have ht1 : ∀ b ∈ t, b < 256 := fun b hb => hb1 b (List.mem_cons_of_mem x hb)
      obtain ⟨hacc, hteq⟩ := ih t2 (a1 * 256 + x) (a2 * 256 + y) hlen ht1 ht2 hfold
      have hx : x < 256 := hb1 x (List.mem_cons_self x t)
      have hy : y < 256 := hb2 y (List.mem_cons_self y t2)
      have hxy : a1 = a2 ∧ x = y := by omega
      exact ⟨hxy.1, by rw [hxy.2, hteq]⟩

/-- Big-endian interpretation is injective on byte lists of equal length. -/
theorem from_be_bytes_inj (l1 l2 : List Nat) (hlen : l1.length = l2.length)
    (hb1 : ∀ x ∈ l1, x < 256) (hb2 : ∀ x ∈ l2, x < 256)
    (heq : from_be_bytes l1 = from_be_bytes l2) : l1 = l2 :=
  (foldl_be_inj l1 l2 0 0 hlen hb1 hb2 heq).2

/-- When every port from `port` up to (but excluding) 65535 refuses to
bind, the loop gives up, provided the fuel budget does not outlast the
`port = 65535` break. -/
theorem bindLoop_fail (canBind : Nat → Bool) :
    ∀ fuel port, fuel + port ≤ 65535 → port < 65535 →
      (∀ p, port ≤ p → p < 65535 → canBind p = false) →
      bindLoop canBind fuel port = .error () := by
  intro fuel
  induction fuel with
  | zero =>
    intro port _ hlt hfail
    rw [bindLoop, hfail port (Nat.le_refl port) hlt]
    simp
  | succ f ih =>
    intro port hle hlt hfail
    rw [bindLoop, hfail port (Nat.le_refl port) hlt]
    simp only [Bool.false_eq_true, if_false]
    by_cases hmax : port + 1 = 65535
    · simp [hmax]
    · rw [if_neg hmax]
      exact ih (port + 1) (by omega) (by omega)
        (fun p hp hplt => hfail p (by omega) hplt)

/-- The loop returns the first bindable port at or after the start,
provided it lies below 65535 and within the fuel budget. -/
theorem bindLoop_ok (canBind : Nat → Bool) :
    ∀ fuel port p, port ≤ p → p < 65535 → p - port ≤ fuel →
      (∀ q, port ≤ q → q < p → canBind q = false) → canBind p = true →
      bindLoop canBind fuel port = .ok p := by
  intro fuel
  induction fuel with
  | zero =>
    intro port p hle hlt hfuel _ hbind
    have : port = p := by omega
    subst this
    rw [bindLoop, hbind]
    simp
  | succ f ih =>
    intro port p hle hlt hfuel hfail hbind
    by_cases hpe : port = p
    · subst hpe
      rw [bindLoop, hbind]
      simp
    · have hplt : port < p := by omega
      rw [bindLoop, hfail port (Nat.le_refl port) hplt]
      simp only [Bool.false_eq_true, if_false]
      rw [if_neg (by omega)]
      exact ih (port + 1) p (by omega) hlt (by omega)
        (fun q hq hqlt => hfail q (by omega) hqlt) hbind

/-- Whatever port the loop returns was bindable, at or after the start,
and below 65535, under the same fuel-budget side conditions. -/
theorem bindLoop_ok_inv (canBind : Nat → Bool) :
    ∀ fuel port p, fuel + port ≤ 65535 → port < 65535 →
      bindLoop canBind fuel port = .ok p →
      port ≤ p ∧ p < 65535 ∧ canBind p = true := by
  intro fuel
  induction fuel with
  | zero =>
    intro port p _ hlt hok
    rw [bindLoop] at hok
    by_cases hb : canBind port
    · rw [if_pos hb] at hok
      simp only [Except.ok.injEq] at hok
      subst hok
      exact ⟨Nat.le_refl port, hlt, hb⟩
    · rw [if_neg hb] at hok
      simp at hok
  | succ f ih =>
    intro port p hle hlt hok
    rw [bindLoop] at hok
    by_cases hb : canBind port
    · rw [if_pos hb] at hok
      simp only [Except.ok.injEq] at hok
      subst hok
      exact ⟨Nat.le_refl port, hlt, hb⟩
    · rw [if_neg hb] at hok
      by_cases hmax : port + 1 = 65535
      · simp [hmax] at hok
      · rw [if_neg hmax] at hok
        obtain ⟨h1, h2, h3⟩ := ih (port + 1) p (by omega) (by omega) hok
        exact ⟨by omega, h2, h3⟩

/-- C1: for every hash whose leading 16 bytes are not all zero, span
creation derives the trace id as the big-endian interpretation of the
first 16 bytes of the hash; the derivation is deterministic (two calls on
the same hash, with any producer handles and names, agree on the trace
id) and injective on the leading 16 bytes. -/
theorem span_derives_be_trace_id
    (t t' : mick_jaeger.TracesIn) (name name' : String) (h1 h2 : Hash)
    (hnz : from_be_bytes (h1.bytes.take 16) ≠ 0) :
    Jaeger.span (.Launched t) h1 name =
      .ok (some ⟨from_be_bytes (h1.bytes.take 16), name, []⟩) ∧
    (∀ s s', Jaeger.span (.Launched t) h1 name = .ok (some s) →
      Jaeger.span (.Launched t') h1 name' = .ok (some s') →
      s.trace_id = s'.trace_id) ∧
    (h1.bytes.take 16 ≠ h2.bytes.take 16 →
      from_be_bytes (h1.bytes.take 16) ≠ from_be_bytes (h2.bytes.take 16)) := by
  have hspan : ∀ (u : mick_jaeger.TracesIn) (nm : String),
      Jaeger.span (.Launched u) h1 nm =
        .ok (some ⟨from_be_bytes (h1.bytes.take 16), nm, []⟩) := by
    intro u nm
    simp [Jaeger.span, Jaeger.traces_in, NonZeroU128.new, hnz,
      mick_jaeger.TracesIn.span]
  refine ⟨hspan t name, ?_, ?_⟩
  · intro s s' hs hs'
    rw [hspan t name] at hs
    rw [hspan t' name'] at hs'
    simp only [Except.ok.injEq, Option.some.injEq] at hs hs'
    rw [← hs, ← hs']
  · intro hne heq
    apply hne
    apply from_be_bytes_inj
    · rw [List.length_take, List.length_take, h1.len_eq, h2.len_eq]
    · intro x hx
      exact h1.bytes_lt x (List.take_subset 16 h1.bytes hx)
    · intro x hx
      exact h2.bytes_lt x (List.take_subset 16 h2.bytes hx)
    · exact heq

/-- Witness for C1 at concrete inputs: the hash starting with byte 1 has a
non-zero leading prefix, span creation yields its big-endian trace id, and
the hash starting with byte 2 yields a different trace id. -/
theorem span_derives_be_trace_id_witness :
    from_be_bytes (hashOne.bytes.take 16) ≠ 0 ∧
    Jaeger.span (.Launched ⟨"svc"⟩) hashOne "import-block" =
      .ok (some ⟨from_be_bytes (hashOne.bytes.take 16), "import-block", []⟩) ∧
    from_be_bytes (hashOne.bytes.take 16) ≠ from_be_bytes (hashTwo.bytes.take 16) := by
  have h := span_derives_be_trace_id ⟨"svc"⟩ ⟨"svc"⟩ "import-block" "x"
    hashOne hashTwo (by decide)
  exact ⟨by decide, h.1, h.2.2 (by decide)⟩

/-- C2 counterexample: with an environment in which binding fails for every
port, `launch()` on a configured manager still returns `Ok(())`
synchronously, and the singleton transitions to Launched — it does not
return `PortAllocationError` and does not remain Configured, refuting the
claim as stated. -/
theorem launch_port_exhaustion_not_sync_cex :
    (Jaeger.launch (.Prep JaegerConfig.default) (.Prep JaegerConfig.default)
      (fun _ => false)).1 = .ok () ∧
    (Jaeger.launch (.Prep JaegerConfig.default) (.Prep JaegerConfig.default)
      (fun _ => false)).2.1 = .Launched ⟨"unknown_-unknown_"⟩ :=
  ⟨rfl, rfl⟩

/-- C2 amended: when binding fails for every port, the background task's
bind phase fails with `PortAllocationError`, while `launch()` itself
returns `Ok(())` synchronously and the singleton transitions to Launched;
the error is confined to the spawned task and never surfaced to the
caller of `launch()`. -/
theorem launch_port_exhaustion_async (cfg : JaegerConfig) (inst : Jaeger)
    (canBind : Nat → Bool) (hfail : ∀ p, canBind p = false) :
    (Jaeger.launch (.Prep cfg) inst canBind).1 = .ok () ∧
    (Jaeger.launch (.Prep cfg) inst canBind).2.1 =
      .Launched ⟨cfg.node_name ++ "-" ++ cfg.node_name⟩ ∧
    (Jaeger.launch (.Prep cfg) inst canBind).2.2 =
      some (.error JaegerError.PortAllocationError) := by
  refine ⟨rfl, rfl, ?_⟩
  have hb : bindLoop canBind (65535 - 49000) 49000 = .error () :=
    bindLoop_fail canBind (65535 - 49000) 49000 (by omega) (by omega)
      (fun p _ _ => hfail p)
  show some ((bindLoop canBind (65535 - 49000) 49000).mapError
      (fun _ => JaegerError.PortAllocationError)) =
    some (.error JaegerError.PortAllocationError)
  rw [hb]
  rfl

/-- Witness for C2 amended with every bind failing: the background bind
phase reports `PortAllocationError`. -/
theorem launch_port_exhaustion_async_witness :
    (Jaeger.launch (.Prep JaegerConfig.default) .None (fun _ => false)).2.2 =
      some (.error JaegerError.PortAllocationError) :=
  (launch_port_exhaustion_async JaegerConfig.default .None (fun _ => false)
    (fun _ => rfl)).2.2

/-- C3 counterexample: the scan does not exhaust the entire 16-bit port
space. With only port 65535 bindable the loop still gives up, and with
every port below 49000 bindable it also gives up: ports 65535 and
0..48999 are never tried. -/
theorem bind_scan_not_whole_port_space_cex :
    bindLoop (fun p => decide (65535 ≤ p)) (65535 - 49000) 49000 = .error () ∧
    (fun p => decide (65535 ≤ p)) 65535 = true ∧
    bindLoop (fun p => decide (p < 49000)) (65535 - 49000) 49000 = .error () ∧
    (fun p => decide (p < 49000)) 0 = true := by
  refine ⟨?_, by decide, ?_, by decide⟩
  · exact bindLoop_fail _ _ _ (by omega) (by omega)
      (fun p hp hlt => decide_eq_false (by omega))
  · exact bindLoop_fail _ _ _ (by omega) (by omega)
      (fun p hp hlt => decide_eq_false (by omega))

/-- C3 amended: the binding loop starts at base port 49000, increments by
one and retries on each failure, returns the first bindable port in
49000..65534, and gives up with an error exactly when every port in
49000..65534 is unbindable (the counter reaching `u16::MAX` = 65535); port
65535 and ports below 49000 are never attempted. -/
theorem bind_scan_range_49000_to_65534 (canBind : Nat → Bool) :
    ((∀ p, 49000 ≤ p → p < 65535 → canBind p = false) →
      bindLoop canBind (65535 - 49000) 49000 = .error ()) ∧
    (∀ p, bindLoop canBind (65535 - 49000) 49000 = .ok p →
      49000 ≤ p ∧ p < 65535 ∧ canBind p = true) ∧
    (∀ p, 49000 ≤ p → p < 65535 →
      (∀ q, 49000 ≤ q → q < p → canBind q = false) → canBind p = true →
      bindLoop canBind (65535 - 49000) 49000 = .ok p) := by
  refine ⟨?_, ?_, ?_⟩
  · intro h
    exact bindLoop_fail canBind _ _ (by omega) (by omega) h
  · intro p h
    exact bindLoop_ok_inv canBind _ _ p (by omega) (by omega) h
  · intro p h1 h2 h3 h4
    exact bindLoop_ok canBind _ _ p h1 h2 (by omega) h3 h4

/-- Witness for C3 amended: with nothing bindable the scan errors, and with
exactly port 49002 bindable the scan returns 49002. -/
theorem bind_scan_range_witness :
    bindLoop (fun _ => false) (65535 - 49000) 49000 = .error () ∧
    bindLoop (fun p => decide (p = 49002)) (65535 - 49000) 49000 = .ok 49002 := by
  constructor
  · exact (bind_scan_range_49000_to_65534 (fun _ => false)).1 (fun _ _ _ => rfl)
  · exact (bind_scan_range_49000_to_65534 (fun p => decide (p = 49002))).2.2
      49002 (by omega) (by omega)
      (fun q hq hlt => decide_eq_false (by omega)) (by decide)

/-- C4: launching an already-launched manager returns `AlreadyLaunched`,
leaves the global instance untouched (in particular Launched stays
Launched) and spawns no background task. -/
theorem launch_already_launched (t : mick_jaeger.TracesIn) (inst : Jaeger)
    (canBind : Nat → Bool) :
    Jaeger.launch (.Launched t) inst canBind =
      (.error .AlreadyLaunched, inst, none) :=
  rfl

/-- C5: launching an uninitialized manager returns `MissingConfiguration`,
leaves the global instance untouched (in particular Uninitialized stays
Uninitialized) and spawns no background task. -/
theorem launch_missing_configuration (inst : Jaeger) (canBind : Nat → Bool) :
    Jaeger.launch .None inst canBind =
      (.error .MissingConfiguration, inst, none) :=
  rfl

/-- C6 counterexample: with the singleton Launched, the span-creation entry
point applied to the all-zero hash does not return an Active handle — it
hits the fatal `expect` (modelled as `.error`), refuting the claim's
universal quantification over every correlation key. -/
theorem span_for_zero_hash_cex :
    hash_span (.Launched ⟨"svc"⟩) hashZero "x" =
      .error "16 bytes make a u128; qed" :=
  rfl

/-- C6 amended: for every correlation key whose leading 16 bytes are not
all zero, the span-creation entry point returns an Active (Enabled) handle
carrying the derived trace id and the given name when the singleton is
Launched, and an Inactive (Disabled) handle in the Configured and
Uninitialized states. -/
theorem span_for_variant_by_state (hash : Hash) (name : String)
    (hnz : from_be_bytes (hash.bytes.take 16) ≠ 0) :
    (∀ t, hash_span (.Launched t) hash name =
      .ok (.Enabled ⟨from_be_bytes (hash.bytes.take 16), name, []⟩)) ∧
    (∀ cfg, hash_span (.Prep cfg) hash name = .ok .Disabled) ∧
    hash_span .None hash name = .ok .Disabled := by
  refine ⟨?_, fun cfg => rfl, rfl⟩
  intro t
  simp [hash_span, Jaeger.span, Jaeger.traces_in, NonZeroU128.new, hnz,
    mick_jaeger.TracesIn.span, JaegerSpan.fromOption, Except.map]

/-- Witness for C6 amended at a concrete non-zero-prefix hash and a
Launched singleton. -/
theorem span_for_variant_witness :
    from_be_bytes (hashOne.bytes.take 16) ≠ 0 ∧
    hash_span (.Launched ⟨"svc"⟩) hashOne "x" =
      .ok (.Enabled ⟨from_be_bytes (hashOne.bytes.take 16), "x", []⟩) :=
  ⟨by decide, (span_for_variant_by_state hashOne "x" (by decide)).1 ⟨"svc"⟩⟩

/-- C7: deriving a child preserves the parent's variant, and an Enabled
child carries the same trace id as its parent. -/
theorem child_preserves_variant_and_trace_id (name : String)
    (s : mick_jaeger.Span) :
    JaegerSpan.child .Disabled name = .Disabled ∧
    JaegerSpan.child (.Enabled s) name = .Enabled (s.child name) ∧
    (s.child name).trace_id = s.trace_id :=
  ⟨rfl, rfl, rfl⟩

/-- C8: attaching a tag to a Disabled handle is a total no-op: the handle
is returned unchanged (and the model is a pure total function, so no
error and no other state change is possible). -/
theorem add_tag_inactive_noop (tag value : String) :
    JaegerSpan.add_string_tag .Disabled tag value = .Disabled :=
  rfl

/-- C9: with the singleton Launched, span creation on a hash whose leading
16 bytes are all zero hits the fatal `expect` panic (modelled as
`.error` with the panic message), and on every hash whose leading 16
bytes are not all zero the fatal branch is unreachable. -/
theorem zero_prefix_panics (t : mick_jaeger.TracesIn) (hash : Hash)
    (name : String) :
    ((∀ b ∈ hash.bytes.take 16, b = 0) →
      Jaeger.span (.Launched t) hash name =
        .error "16 bytes make a u128; qed") ∧
    ((¬ ∀ b ∈ hash.bytes.take 16, b = 0) →
      ∀ e, Jaeger.span (.Launched t) hash name ≠ .error e) := by
  have hiff : from_be_bytes (hash.bytes.take 16) = 0 ↔
      ∀ b ∈ hash.bytes.take 16, b = 0 := by
    unfold from_be_bytes
    rw [foldl_be_eq_zero_iff]
    simp
  constructor
  · intro hz
    have h0 : from_be_bytes (hash.bytes.take 16) = 0 := hiff.mpr hz
    simp [Jaeger.span, Jaeger.traces_in, NonZeroU128.new, h0]
  · intro hnz e
    have h0 : from_be_bytes (hash.bytes.take 16) ≠ 0 := fun h => hnz (hiff.mp h)
    simp [Jaeger.span, Jaeger.traces_in, NonZeroU128.new, h0]

/-- Witness for C9: the all-zero hash panics, the hash with leading byte 1
does not. -/
theorem zero_prefix_panics_witness :
    Jaeger.span (.Launched ⟨"svc"⟩) hashZero "x" =
      .error "16 bytes make a u128; qed" ∧
    Jaeger.span (.Launched ⟨"svc"⟩) hashOne "x" ≠
      .error "16 bytes make a u128; qed" :=
  ⟨(zero_prefix_panics ⟨"svc"⟩ hashZero "x").1 (by decide),
   (zero_prefix_panics ⟨"svc"⟩ hashOne "x").2 (by decide)
     "16 bytes make a u128; qed"⟩

/-- C10: a successful launch passes `mick_jaeger` a service name equal to
the node name, a hyphen, and the node name again; node name "alice"
yields service name "alice-alice". -/
theorem service_name_doubled (cfg : JaegerConfig) (inst : Jaeger)
    (canBind : Nat → Bool) :
    (Jaeger.launch (.Prep cfg) inst canBind).1 = .ok () ∧
    (Jaeger.launch (.Prep cfg) inst canBind).2.1 =
      .Launched ⟨cfg.node_name ++ "-" ++ cfg.node_name⟩ ∧
    (Jaeger.launch (.Prep ⟨"alice", "127.0.0.1:6831"⟩) inst canBind).2.1 =
      .Launched ⟨"alice-alice"⟩ :=
  ⟨rfl, rfl, rfl⟩

end JaegerRs
